import Mathlib

set_option maxRecDepth 100000

/-!
Verification of the request-handling core of `src/server.c` (a minimal
HTTP/1.1 server).  Each C function of the core pipeline is shallowly
embedded as an executable Lean definition:

* C strings are modelled as `List Char` with no interior NUL byte unless
  noted; where the C code can place or meet a NUL, the embedding keeps the
  raw byte list and applies the C-string reading (`takeWhile (· ≠ NUL)`)
  exactly where the C code calls a `str*` routine.
* Raw octets (the url-decoder, the CGI output) are modelled as `List Nat`,
  each element a byte value; machine arithmetic that can wrap is made
  explicit with `% 256` / `% 65536`.
* Out-of-bounds accesses and NULL-pointer dereferences that the C code can
  perform are surfaced as an explicit result (`ParseResult.oob`,
  `Option.none` for `lookup`) instead of being defined away.
* Fixed-size caller buffers (`abs_path`, `query` in `main`) are passed and
  returned explicitly, so that what the code writes — and what it leaves
  untouched — is visible in the result.
-/

/-! ## Generic C-string helpers -/

/-- Index of the first occurrence of `c` (C `strchr`, on a NUL-free list). -/
def strchr (c : Char) : List Char → Option Nat
  | [] => none
  | d :: rest => if d = c then some 0 else (strchr c rest).map (· + 1)

/-- Index of the last occurrence of `c` (C `strrchr`, on a NUL-free list). -/
def strrchr (c : Char) : List Char → Option Nat
  | [] => none
  | d :: rest =>
    match strrchr c rest with
    | some i => some (i + 1)
    | none => if d = c then some 0 else none

/-- Index of the first occurrence of the pattern `pat` as a contiguous
sublist (C `strstr`, on the already-truncated C string). -/
def findSub {α : Type} [DecidableEq α] (pat : List α) : List α → Option Nat
  | [] => if pat = [] then some 0 else none
  | c :: rest =>
    if (c :: rest).take pat.length = pat then some 0
    else (findSub pat rest).map (· + 1)

/-- The pattern `pat` occurs in `l` starting at index `p`. -/
def sublistAt {α : Type} (l : List α) (p : Nat) (pat : List α) : Prop :=
  (l.drop p).take pat.length = pat

instance {α : Type} [DecidableEq α] (l : List α) (p : Nat) (pat : List α) :
    Decidable (sublistAt l p pat) := by
  unfold sublistAt; infer_instance

/-- Reading a fixed-size `char` buffer as a C string: the bytes before the
first NUL. -/
def cstr (buf : List Char) : List Char := buf.takeWhile (· ≠ Char.ofNat 0)

/-- Writing the C string `s` (NUL-free) into the buffer `buf`:
`strncpy`/`strcpy` followed by explicit NUL termination overwrite the first
`s.length + 1` bytes and leave the remainder of the buffer untouched. -/
def writeCStr (buf s : List Char) : List Char :=
  s ++ [Char.ofNat 0] ++ buf.drop (s.length + 1)

/-- ASCII `tolower`, as used by `strcasecmp`. -/
def lowerC (c : Char) : Char :=
  if 'A' ≤ c ∧ c ≤ 'Z' then Char.ofNat (c.toNat + 32) else c

/-- C `strcasecmp(a, b) == 0`. -/
def eqNoCase (a b : List Char) : Bool :=
  decide (a.map lowerC = b.map lowerC)

/-! ## Response writing: `reason`, `respond`, `error`, `redirect`
(src/server.c lines 802-819, 957-1004, 289-313, 824-834) -/

/-- Everything `respond` emits for one response: the status line, the
caller-supplied header block, the body bytes, and the line printed to the
server log (ANSI colour escapes omitted).  `respond` returning `none`
means not a single byte was written and nothing was logged. -/
structure HttpOut where
  statusLine : List Char
  headers : List Char
  body : List Char
  logLine : List Char
deriving DecidableEq, Repr

/-- `reason` (server.c 802-819): the closed reason-phrase table.  The C
parameter is an `unsigned short`, so the domain is values below 65536. -/
def reason (code : Nat) : Option (List Char) :=
  if code = 200 then some "OK".data
  else if code = 301 then some "Moved Permanently".data
  else if code = 400 then some "Bad Request".data
  else if code = 403 then some "Forbidden".data
  else if code = 404 then some "Not Found".data
  else if code = 405 then some "Method Not Allowed".data
  else if code = 414 then some "Request-URI Too Long".data
  else if code = 418 then some ("I".data ++ [Char.ofNat 39] ++ "m a teapot".data)
  else if code = 500 then some "Internal Server Error".data
  else if code = 501 then some "Not Implemented".data
  else if code = 505 then some "HTTP Version Not Supported".data
  else none

/-- `respond` (server.c 957-1004).  The C parameter is an `int`; passing it
to `reason(unsigned short)` converts it modulo 2^16, while `dprintf`
prints the original `int` value.  A `none` result models the early
`return` before any output. -/
def respond (code : Int) (headers body : List Char) : Option HttpOut :=
  match reason ((code % 65536).toNat) with
  | none => none
  | some phrase =>
    some { statusLine := "HTTP/1.1 ".data ++ (toString code).data ++ [' '] ++ phrase ++ "\r\n".data
         , headers := headers
         , body := body
         , logLine := "HTTP/1.1 ".data ++ (toString code).data ++ [' '] ++ phrase }

/-- `error` (server.c 289-313): renders the HTML template
`<html><head><title>%i %s</title></head><body><h1>%i %s</h1></body></html>`
and routes it through `respond`; unknown codes return before any output. -/
def error (code : Nat) : Option HttpOut :=
  match reason code with
  | none => none
  | some phrase =>
    respond code ("Content-Type: text/html\r\n".data)
      ("<html><head><title>".data ++ (toString (code : Int)).data ++ [' '] ++ phrase
        ++ "</title></head><body><h1>".data ++ (toString (code : Int)).data ++ [' '] ++ phrase
        ++ "</h1></body></html>".data)

/-- `redirect` (server.c 824-834): `Location` header, 301, empty body. -/
def redirect (uri : List Char) : Option HttpOut :=
  respond 301 ("Location: ".data ++ uri ++ "\r\n".data) []

/-! ## `urldecode` (src/server.c lines 1153-1193) -/

/-- The byte is an ASCII hex digit. -/
def isHexDigitB (c : Nat) : Bool :=
  decide ((48 ≤ c ∧ c ≤ 57) ∨ (65 ≤ c ∧ c ≤ 70) ∨ (97 ≤ c ∧ c ≤ 102))

/-- Value of an ASCII hex digit (0 for other bytes). -/
def hexVal (c : Nat) : Nat :=
  if 48 ≤ c ∧ c ≤ 57 then c - 48
  else if 65 ≤ c ∧ c ≤ 70 then c - 55
  else if 97 ≤ c ∧ c ≤ 102 then c - 87
  else 0

/-- The byte is C `isspace` in the default locale. -/
def isSpaceB (c : Nat) : Bool := decide (c = 32 ∨ (9 ≤ c ∧ c ≤ 13))

/-- `(char) strtol(octet, NULL, 16)` for the exactly-two-byte string
`[c, d]`: leading whitespace and an optional sign are skipped, the longest
hex-digit prefix is converted (`"0x"` alone parses as `"0"`), any parse
failure yields 0, and the result is truncated to one byte. -/
def strtol2 (c d : Nat) : Nat :=
  if isHexDigitB c && isHexDigitB d then (16 * hexVal c + hexVal d) % 256
  else if isHexDigitB c then hexVal c
  else if isSpaceB c || c = 43 then (if isHexDigitB d then hexVal d else 0)
  else if c = 45 then (if isHexDigitB d then (256 - hexVal d) % 256 else 0)
  else 0

/-- `urldecode` (server.c 1153-1193) on the byte list of the input string.
A `%` (37) with at least two following bytes consumes them and emits
`strtol2` of the pair — the C code never checks that they are hex digits;
`+` (43) becomes a space (32); everything else is copied. -/
def urldecode : List Nat → List Nat
  | [] => []
  | 37 :: c :: d :: rest => strtol2 c d :: urldecode rest
  | 43 :: rest => 32 :: urldecode rest
  | c :: rest => c :: urldecode rest

/-- `urldecode` lifted to `List Char` followed by the C-string reading the
caller applies with `strcat` (the decoded bytes up to the first NUL). -/
def urldecodeC (s : List Char) : List Char :=
  (((urldecode (s.map Char.toNat)).map fun b => Char.ofNat b).takeWhile (· ≠ Char.ofNat 0))

/-! ## `htmlspecialchars` (src/server.c lines 346-439) -/

/-- `htmlspecialchars`: the five entity replacements, all other characters
copied.  `Char.ofNat 34` is the double quote, `Char.ofNat 39` the
apostrophe. -/
def htmlspecialchars : List Char → List Char
  | [] => []
  | c :: rest =>
    (if c = '&' then "&amp;".data
     else if c = Char.ofNat 34 then "&quot;".data
     else if c = Char.ofNat 39 then "&#039;".data
     else if c = '<' then "&lt;".data
     else if c = '>' then "&gt;".data
     else [c]) ++ htmlspecialchars rest

/-! ## `lookup` (src/server.c lines 657-701) -/

/-- `lookup`: `strrchr(path, '.')` finds the last dot; the suffix from it
is compared case-insensitively against the eight-entry table.  When the
path holds no dot, `strrchr` returns NULL and the C code passes NULL to
`strcasecmp` — a NULL-pointer dereference, modelled as the outer `none`.
`some none` is the C `NULL` ("no MIME type") return. -/
def lookup (path : List Char) : Option (Option (List Char)) :=
  match strrchr '.' path with
  | none => none
  | some i =>
    let ext := path.drop i
    some
      (if eqNoCase ext ".css".data then some "text/css".data
       else if eqNoCase ext ".html".data then some "text/html".data
       else if eqNoCase ext ".gif".data then some "image/gif".data
       else if eqNoCase ext ".ico".data then some "image/x-ico".data
       else if eqNoCase ext ".jpg".data then some "image/jpeg".data
       else if eqNoCase ext ".js".data then some "text/javascript".data
       else if eqNoCase ext ".php".data then some "text/x-php".data
       else if eqNoCase ext ".png".data then some "image/png".data
       else none)

/-! ## `parse` (src/server.c lines 708-794) -/

/-- Result of `parse`: `ok` carries the two caller buffers as left after
the call; `err c` is `error(c); return false` (buffers untouched); `oob`
marks the out-of-bounds `strncpy` the C code performs when a length
computed as a negative `int` is converted to `size_t`. -/
inductive ParseResult where
  | ok (absBuf queryBuf : List Char) : ParseResult
  | err (code : Nat) : ParseResult
  | oob : ParseResult
deriving DecidableEq, Repr

/-- `parse` (server.c 708-794) on a NUL-free request line `line`, with the
caller's `abs_path` buffer `bA` and `query` buffer `bQ`.

Faithful points worth noting:
* `requestSize = secondSpace - firstSpace - 1` is `-1` when the first and
  last space coincide; `strncpy` then receives `(size_t)(-1)` — `oob`.
* the version copy length `clrf - secondSpace + 2` is likewise negative
  only when `clrf + 2 < secondSpace` — `oob`.
* the query-delimiter search `strchr(line, '?')` scans from the start of
  the whole line, and the copy length `secondSpace - queryBegins` includes
  the byte at `secondSpace` itself (the space before the version).
* in the no-query branch the C code assigns `query = NULL`, which rebinds
  the local parameter only: the caller's buffer comes back unchanged.
* in the reachable `ok` branches `queryBegins ≥ firstSpace + 2` (the
  method is exactly "GET" and the target starts with `/`), so the `Nat`
  subtractions below agree with the C `int` arithmetic. -/
def parse (line bA bQ : List Char) : ParseResult :=
  match strchr ' ' line with
  | none => .err 400
  | some firstSpace =>
    let method := line.take firstSpace
    if method ≠ "GET".data then .err 405
    else
      match strrchr ' ' line with
      | none => .err 400
      | some secondSpace =>
        if secondSpace = firstSpace then .oob
        else
          let request := (line.drop (firstSpace + 1)).take (secondSpace - firstSpace - 1)
          if request.take 1 ≠ ['/'] then .err 501
          else if (strchr (Char.ofNat 34) request).isSome then .err 400
          else
            match findSub "\r\n".data line with
            | none => .err 400
            | some clrf =>
              if clrf + 2 < secondSpace then .oob
              else
                let version := (line.drop (secondSpace + 1)).take (clrf + 2 - secondSpace)
                if version ≠ "HTTP/1.1\r\n".data then .err 505
                else
                  if (strchr '?' request).isSome then
                    match strchr '?' line with
                    | none => .oob
                    | some queryBegins =>
                      .ok (writeCStr bA ((line.drop (firstSpace + 1)).take (queryBegins - firstSpace - 1)))
                          (writeCStr bQ ((line.drop (queryBegins + 1)).take (secondSpace - queryBegins)))
                  else
                    .ok (writeCStr bA request) bQ

/-- The request-target `parse` extracts: the characters strictly between
the first and the last space of the line (`none` when that span is empty
or no space exists). -/
def requestTargetOf (line : List Char) : Option (List Char) :=
  match strchr ' ' line, strrchr ' ' line with
  | some firstSpace, some secondSpace =>
    if secondSpace = firstSpace then none
    else some ((line.drop (firstSpace + 1)).take (secondSpace - firstSpace - 1))
  | _, _ => none

/-! ## `request` — the framer (src/server.c lines 840-952) -/

def LimitRequestFields : Nat := 50
def LimitRequestFieldSize : Nat := 4094
def LimitRequestLine : Nat := 8190
def BYTES : Nat := 512

/-- The header-field scan of `request` (server.c 906-931): walk the bytes
after the request line, one CRLF-terminated field at a time; a field
longer than `LimitRequestFieldSize` or a tail without CRLF stops the walk
early (invalid).  `fuel` only bounds the recursion; the caller passes the
list length, which each step (consuming at least two bytes) never
exhausts. -/
def scanFields : Nat → List Char → Bool
  | _, [] => true
  | 0, _ :: _ => false
  | fuel + 1, c :: rest =>
    match findSub "\r\n".data (c :: rest) with
    | none => false
    | some i =>
      if i + 2 > LimitRequestFieldSize then false
      else scanFields fuel ((c :: rest).drop (i + 2))

/-- The accumulation loop of `request` (server.c 853-942).  Each iteration
reads the next chunk of at most `BYTES` bytes from `stream`; an exhausted
stream (`read` returning 0 forever) never produces a message.  The
`\r\n\r\n` search restarts 3 bytes before the freshly appended chunk; all
`strstr` searches honour C-string truncation at a NUL byte.  After the
terminator is found the message is trimmed to one CRLF past it, the
request line and the fields are checked — and the field *count* check
compares the constant 0, because the C loop never increments `fields`. -/
def requestLoop : Nat → List Char → List Char → Option (List Char)
  | 0, _, _ => none
  | fuel + 1, stream, message =>
    if message.length < LimitRequestLine + LimitRequestFields * LimitRequestFieldSize + 4 then
      if stream.isEmpty then none
      else
        let msg := message ++ stream.take BYTES
        let start := message.length - min message.length 3
        match findSub "\r\n\r\n".data ((msg.drop start).takeWhile (· ≠ Char.ofNat 0)) with
        | some i =>
          let trimmed := msg.take (start + i + 2)
          match findSub "\r\n".data (trimmed.takeWhile (· ≠ Char.ofNat 0)) with
          | none => none
          | some rl =>
            if rl + 2 > LimitRequestLine then none
            else
              let rest := (trimmed.drop (rl + 2)).takeWhile (· ≠ Char.ofNat 0)
              if scanFields rest.length rest then
                let fields := 0
                if fields > LimitRequestFields then none else some trimmed
              else none
        | none => requestLoop fuel (stream.drop BYTES) msg
    else none

/-- `request` (server.c 840-952): frame one request's header block from
the client's byte stream.  `none` models every `return false` path (the
message freed, no response written). -/
def request (stream : List Char) : Option (List Char) :=
  requestLoop (stream.length + 1) stream []

/-! ## `interpret`'s output split (src/server.c lines 504-523) -/

/-- What `interpret` does with the captured interpreter output. -/
inductive CgiReply where
  | failure (code : Nat) : CgiReply
  | success (code : Nat) (headers body : List Nat) : CgiReply
deriving DecidableEq, Repr

/-- The boundary split of `interpret` (server.c 504-523) on the captured
byte sequence `content`: `strstr(content, "\r\n\r\n")` searches the
C string — the bytes up to the first NUL; no match frees the content and
responds 500; a match at `p` forwards the first `p + 2` bytes (through the
first CRLF of the boundary) as headers and the bytes from `p + 4` as the
body, with status 200 and body length `content.length - (p + 4)`. -/
def interpretSplit (content : List Nat) : CgiReply :=
  match findSub [13, 10, 13, 10] (content.takeWhile (· ≠ 0)) with
  | none => .failure 500
  | some p => .success 200 (content.take (p + 2)) (content.drop (p + 4))

/-! ## `main`'s per-request dispatch (src/server.c lines 163-266) -/

/-- The filesystem facts `main` and `indexes` consult: `access(_, F_OK)`
and `stat`+`S_ISDIR`. -/
structure FS where
  accessF : List Char → Bool
  isDir : List Char → Bool

/-- `indexes` (server.c 445-463): first of `path/index.php`,
`path/index.html` that exists. -/
def indexes (fs : FS) (path : List Char) : Option (List Char) :=
  if fs.accessF (path ++ "/index.php".data) then some (path ++ "/index.php".data)
  else if fs.accessF (path ++ "/index.html".data) then some (path ++ "/index.html".data)
  else none

/-- The terminal action `main` takes for one parsed request.  `interpret`
and `transfer` record the arguments `main` passes (the readability checks
and I/O inside those functions happen after this dispatch); `oob` marks
reaching undefined behaviour (`lookup` on a dotless path, or indexing an
empty `abs_path`). -/
inductive ServerAction where
  | error (code : Nat) : ServerAction
  | redirect (uri : List Char) : ServerAction
  | list (path : List Char) : ServerAction
  | interpret (path query : List Char) : ServerAction
  | transfer (path type : List Char) : ServerAction
  | oob : ServerAction
deriving DecidableEq, Repr

/-- The MIME dispatch of `main` (server.c 244-262): `lookup`, 501 on a
NULL type, `interpret` for `text/x-php` (compared with `strcasecmp`),
`transfer` otherwise. -/
def afterType (path q : List Char) : ServerAction :=
  match lookup path with
  | none => .oob
  | some none => .error 501
  | some (some t) => if eqNoCase "text/x-php".data t then .interpret path q else .transfer path t

/-- `main`'s handling of one successfully framed request line (server.c
184-262): parse into the two stack buffers, URL-decode the absolute path,
resolve against `root`, then dispatch.  `bA`/`bQ` are the buffers'
contents before the call (the C arrays are uninitialised). -/
def handle (fs : FS) (root line bA bQ : List Char) : ServerAction :=
  match parse line bA bQ with
  | .oob => .oob
  | .err c => .error c
  | .ok a q =>
    if fs.accessF (root ++ urldecodeC (cstr a)) = false then .error 404
    else if fs.isDir (root ++ urldecodeC (cstr a)) = true then
      match (cstr a).getLast? with
      | none => .oob
      | some ch =>
        if ch ≠ '/' then .redirect (cstr a ++ ['/'])
        else
          match indexes fs (root ++ urldecodeC (cstr a)) with
          | some ipath => afterType ipath q
          | none => .list (root ++ urldecodeC (cstr a))
    else afterType (root ++ urldecodeC (cstr a)) q

/-! ## Concrete instances used by the claims -/

/-- A client stream holding a request line and 51 header fields. -/
def fieldStream51 : List Char :=
  "GET / HTTP/1.1\r\n".data ++ (List.replicate 51 "a:b\r\n".data).flatten ++ "\r\n".data

/-- The trimmed header block of `fieldStream51`: the request line and the
51 fields. -/
def fieldMessage51 : List Char :=
  "GET / HTTP/1.1\r\n".data ++ (List.replicate 51 "a:b\r\n".data).flatten

/-- A filesystem where exactly `/srv/Makefile` exists, as a plain file. -/
def fsMakefile : FS :=
  { accessF := fun p => decide (p = "/srv/Makefile".data)
  , isDir := fun _ => false }

/-- A filesystem where exactly `/r/d` exists, as a directory. -/
def fsDir : FS :=
  { accessF := fun p => decide (p = "/r/d".data)
  , isDir := fun p => decide (p = "/r/d".data) }

/-- A filesystem where exactly `/r/x.php` exists, as a plain file. -/
def fsPhp : FS :=
  { accessF := fun p => decide (p = "/r/x.php".data)
  , isDir := fun _ => false }

/-- The closed status-code set of the reason-phrase table. -/
def statusCodes : List Nat := [200, 301, 400, 403, 404, 405, 414, 418, 500, 501, 505]

/-! ## Theorems -/

/-! ### Helper lemmas about the C-string searches -/

theorem strchr_eq_none_iff (c : Char) : ∀ l, strchr c l = none ↔ c ∉ l := by
  intro l
  induction l with
  | nil => simp [strchr]
  | cons d rest ih =>
    by_cases h : d = c
    · subst h; simp [strchr]
    · have hd : ¬c = d := fun e => h e.symm
      simp [strchr, h, Option.map_eq_none', ih, hd]

theorem strrchr_eq_none_of_not_mem (c : Char) : ∀ l, c ∉ l → strrchr c l = none := by
  intro l
  induction l with
  | nil => simp [strrchr]
  | cons d rest ih =>
    intro h
    rw [List.mem_cons, not_or] at h
    rw [strrchr, ih h.2, if_neg (fun e : d = c => h.1 e.symm)]

theorem findSub_none_spec {α : Type} [DecidableEq α] (pat : List α) (hp : pat ≠ []) :
    ∀ l, findSub pat l = none → ∀ p, ¬ sublistAt l p pat := by
  intro l
  induction l with
  | nil =>
    intro _ p h
    unfold sublistAt at h
    simp only [List.drop_nil, List.take_nil] at h
    exact hp h.symm
  | cons c rest ih =>
    intro hf p h
    by_cases hc : (c :: rest).take pat.length = pat
    · simp [findSub, hc] at hf
    · simp only [findSub, if_neg hc, Option.map_eq_none'] at hf
      cases p with
      | zero => exact hc (by simpa [sublistAt] using h)
      | succ p' =>
        refine ih hf p' ?_
        unfold sublistAt at h ⊢
        simpa [List.drop_succ_cons] using h

theorem findSub_some_spec {α : Type} [DecidableEq α] (pat : List α) :
    ∀ l p, findSub pat l = some p →
      sublistAt l p pat ∧ ∀ q, q < p → ¬ sublistAt l q pat := by
  intro l
  induction l with
  | nil =>
    intro p h
    by_cases hp : pat = []
    · subst hp
      simp [findSub] at h
      subst h
      exact ⟨by simp [sublistAt], fun q hq => absurd hq (by omega)⟩
    · simp [findSub, hp] at h
  | cons c rest ih =>
    intro p h
    by_cases hc : (c :: rest).take pat.length = pat
    · simp only [findSub, if_pos hc, Option.some.injEq] at h
      subst h
      exact ⟨by simpa [sublistAt] using hc, fun q hq => absurd hq (by omega)⟩
    · simp only [findSub, if_neg hc, Option.map_eq_some'] at h
      obtain ⟨p', hp', rfl⟩ := h
      obtain ⟨h1, h2⟩ := ih p' hp'
      refine ⟨by simpa [sublistAt, List.drop_succ_cons] using h1, ?_⟩
      intro q hq
      cases q with
      | zero => exact fun hs => hc (by simpa [sublistAt] using hs)
      | succ q' =>
        intro hs
        exact h2 q' (by omega) (by simpa [sublistAt, List.drop_succ_cons] using hs)

theorem findSub_eq_of_minimal {α : Type} [DecidableEq α] (pat l : List α) (hp : pat ≠ [])
    (p : Nat) (h1 : sublistAt l p pat) (h2 : ∀ q, q < p → ¬ sublistAt l q pat) :
    findSub pat l = some p := by
  cases hf : findSub pat l with
  | none => exact absurd h1 (findSub_none_spec pat hp l hf p)
  | some w =>
    obtain ⟨g1, g2⟩ := findSub_some_spec pat l w hf
    rcases Nat.lt_trichotomy w p with hlt | heq | hgt
    · exact absurd g1 (h2 w hlt)
    · rw [heq]
    · exact absurd h1 (g2 p hgt)

/-! ### Helper lemmas about `urldecode` and `htmlspecialchars` -/

theorem hexVal_lt_16 (c : Nat) (h : isHexDigitB c = true) : hexVal c < 16 := by
  have h' := of_decide_eq_true h
  unfold hexVal
  split_ifs <;> omega

theorem length_le_length_htmlspecialchars :
    ∀ s, s.length ≤ (htmlspecialchars s).length := by
  intro s
  induction s with
  | nil => simp [htmlspecialchars]
  | cons c rest ih =>
    simp only [htmlspecialchars, List.length_cons, List.length_append]
    split_ifs <;> simp <;> omega

theorem amp_mem_htmlspecialchars :
    ∀ s, '&' ∈ s → '&' ∈ htmlspecialchars s := by
  intro s
  induction s with
  | nil => simp
  | cons c rest ih =>
    intro h
    rw [List.mem_cons] at h
    simp only [htmlspecialchars, List.mem_append]
    rcases h with h | h
    · subst h; left; decide
    · right; exact ih h

theorem length_lt_length_htmlspecialchars :
    ∀ s, '&' ∈ s → s.length < (htmlspecialchars s).length := by
  intro s
  induction s with
  | nil => simp
  | cons c rest ih =>
    intro h
    have hle := length_le_length_htmlspecialchars rest
    rw [List.mem_cons] at h
    simp only [htmlspecialchars, List.length_cons, List.length_append]
    rcases h with h | h
    · subst h; simp; omega
    · have := ih h
      split_ifs <;> simp <;> omega

/-! ### Helper lemma about the reason-phrase table -/

set_option maxHeartbeats 1600000 in
theorem reason_isSome_iff (code : Nat) :
    (reason code).isSome ↔ code ∈ statusCodes := by
  unfold reason
  split_ifs <;>
    simp only [Option.isSome_some, Option.isSome_none, eq_self_iff_true,
      Bool.false_eq_true, true_iff, false_iff, statusCodes, List.mem_cons,
      List.not_mem_nil, or_false] <;>
    omega

/-- Claim C1 (evaluation at the failing input): for the request line
`GET /a/b?x=1 HTTP/1.1\r\n`, `parse` succeeds with absolute path `/a/b`
but stores `"x=1 "` — four bytes, the trailing space at index
`secondSpace` included — in the query buffer, because the `strncpy`
length is `secondSpace - queryBegins` instead of
`secondSpace - queryBegins - 1`.  The claim (and the spec) say the query
is exactly `"x=1"`. -/
theorem parse_query_trailing_space :
    parse "GET /a/b?x=1 HTTP/1.1\r\n".data
        (List.replicate 12 (Char.ofNat 35)) (List.replicate 12 (Char.ofNat 35))
      = .ok (writeCStr (List.replicate 12 (Char.ofNat 35)) "/a/b".data)
            (writeCStr (List.replicate 12 (Char.ofNat 35)) "x=1 ".data)
    ∧ cstr (writeCStr (List.replicate 12 (Char.ofNat 35)) "x=1 ".data) = "x=1 ".data
    ∧ cstr (writeCStr (List.replicate 12 (Char.ofNat 35)) "/a/b".data) = "/a/b".data
    ∧ "x=1 ".data ≠ "x=1".data := by
  refine ⟨by decide, by decide, by decide, by decide⟩

/-- Claim C2 (evaluation at the failing input): a header block with 51
fields — one more than `LimitRequestFields` — is accepted by `request`,
because the field counter is declared but never incremented, so the
`fields > LimitRequestFields` check compares the constant 0. -/
theorem request_accepts_51_fields :
    request fieldStream51 = some fieldMessage51
    ∧ (List.replicate 51 "a:b\r\n".data).flatten.length / "a:b\r\n".data.length = 51
    ∧ 51 > LimitRequestFields := by
  refine ⟨by decide, by decide, by decide⟩

/-- Claim C3 (counterexample): a `%` followed by two characters that are
not both hex digits is not passed through unchanged — `urldecode` always
consumes the two bytes and emits what `strtol` parses; on `"%G1"` that is
the single byte 0. -/
theorem urldecode_nonhex_counterexample :
    urldecode [37, 71, 49] = [0] ∧ urldecode [37, 71, 49] ≠ [37, 71, 49] := by
  refine ⟨by decide, by decide⟩

/-- Claim C3 (amended): `urldecode` maps `%XY` with two hex digits to the
byte 0xXY, `+` to a space and every other character through unchanged; a
`%` with fewer than two following characters is left unconverted; the
output is never longer than the input; `urldecode("%41%20B+C") = "A B C"`.
The one amendment forced by the counterexample above: a `%` followed by
any two characters is consumed together with them and decoded by the
`strtol` rules (no hex-digit check), not passed through. -/
theorem urldecode_spec_amended :
    (∀ s, (urldecode s).length ≤ s.length) ∧
    (∀ c d rest, isHexDigitB c = true → isHexDigitB d = true →
      urldecode (37 :: c :: d :: rest) = (16 * hexVal c + hexVal d) :: urldecode rest) ∧
    (∀ rest, urldecode (43 :: rest) = 32 :: urldecode rest) ∧
    (∀ c rest, c ≠ 37 → c ≠ 43 → urldecode (c :: rest) = c :: urldecode rest) ∧
    (∀ c, urldecode [37, c] = 37 :: urldecode [c]) ∧
    urldecode [37] = [37] ∧
    urldecode [37, 52, 49, 37, 50, 48, 66, 43, 67] = [65, 32, 66, 32, 67] := by
  refine ⟨?_, ?_, ?_, ?_, ?_, by decide, by decide⟩
  · intro s
    induction s using urldecode.induct <;> simp [urldecode] <;> omega
  · intro c d rest hc hd
    have h1 : hexVal c < 16 := hexVal_lt_16 c hc
    have h2 : hexVal d < 16 := hexVal_lt_16 d hd
    simp only [urldecode, strtol2, hc, hd, Bool.and_self, if_true]
    rw [Nat.mod_eq_of_lt (by omega)]
  · intro rest
    simp [urldecode]
  · intro c rest h1 h2
    simp [urldecode, h1, h2]
  · intro c
    simp [urldecode]

/-- Claim C3 (witness for the amended claim): the hex branch at `%41`. -/
theorem urldecode_spec_amended_witness :
    isHexDigitB 52 = true ∧ isHexDigitB 49 = true ∧ urldecode [37, 52, 49] = [65] := by
  refine ⟨by decide, by decide, ?_⟩
  have h := urldecode_spec_amended.2.1 52 49 [] (by decide) (by decide)
  rw [h]; decide

/-- Claim C4 (evaluation at the failing input): for a resolved path that
exists, is not a directory and contains no dot at all, `strrchr` returns
NULL and `lookup` passes it straight to `strcasecmp` — a NULL-pointer
dereference (the outer `none`), not the "no MIME type" return the claim
describes; `main`'s dispatch therefore reaches undefined behaviour
instead of responding 501. -/
theorem lookup_dotless_null_deref :
    lookup "/srv/Makefile".data = none
    ∧ handle fsMakefile "/srv".data "GET /Makefile HTTP/1.1\r\n".data
        (List.replicate 12 (Char.ofNat 35)) (List.replicate 12 (Char.ofNat 35)) = .oob := by
  refine ⟨by decide, by decide⟩

/-- Claim C6 (counterexample): the boundary search is `strstr` on a C
string, so it stops at the first NUL byte.  The captured sequence
`[0, 13, 10, 13, 10, 104]` contains the `\r\n\r\n` boundary at index 1,
yet `interpret` responds 500 instead of splitting there. -/
theorem interpretSplit_nul_counterexample :
    interpretSplit [0, 13, 10, 13, 10, 104] = .failure 500
    ∧ sublistAt ([0, 13, 10, 13, 10, 104] : List Nat) 1 [13, 10, 13, 10] := by
  refine ⟨by decide, by decide⟩

/-- Claim C6 (amended): the boundary search runs over the captured bytes
up to the first NUL (the C-string reading).  Within that prefix: no
boundary means the server responds 500; otherwise the split happens at
the first occurrence, the headers are the prefix up to and including the
first CRLF of the boundary, the body is the remainder after the full
boundary, its length is the captured length minus header block and
boundary, and the status is 200. -/
theorem interpretSplit_boundary_spec :
    ∀ content : List Nat,
      ((∀ p, ¬ sublistAt (content.takeWhile (· ≠ 0)) p [13, 10, 13, 10]) →
        interpretSplit content = .failure 500) ∧
      (∀ p, sublistAt (content.takeWhile (· ≠ 0)) p [13, 10, 13, 10] →
        (∀ q, q < p → ¬ sublistAt (content.takeWhile (· ≠ 0)) q [13, 10, 13, 10]) →
        interpretSplit content = .success 200 (content.take (p + 2)) (content.drop (p + 4)) ∧
        (content.drop (p + 4)).length = content.length - (p + 4)) := by
  intro content
  constructor
  · intro h
    unfold interpretSplit
    cases hf : findSub [13, 10, 13, 10] (content.takeWhile (· ≠ 0)) with
    | none => rfl
    | some p => exact absurd (findSub_some_spec _ _ p hf).1 (h p)
  · intro p h1 h2
    unfold interpretSplit
    rw [findSub_eq_of_minimal _ _ (by decide) p h1 h2]
    exact ⟨rfl, by simp⟩

/-- Claim C6 (witness for the amended claim): a NUL-free capture with the
boundary at index 1 splits into headers `[72, 13, 10]` and body `[33]`. -/
theorem interpretSplit_boundary_spec_witness :
    sublistAt (([72, 13, 10, 13, 10, 33] : List Nat).takeWhile (· ≠ 0)) 1 [13, 10, 13, 10]
    ∧ interpretSplit [72, 13, 10, 13, 10, 33] = .success 200 [72, 13, 10] [33] := by
  refine ⟨by decide, ?_⟩
  have h := (interpretSplit_boundary_spec [72, 13, 10, 13, 10, 33]).2 1 (by decide)
    (by intro q hq; have hq0 : q = 0 := Nat.lt_one_iff.mp hq; subst hq0; decide)
  exact h.1.trans (by decide)

/-- Claim C7: `htmlspecialchars` escapes the five special characters to
their entities and copies everything else; on `<a>&"'</a>` it yields
`&lt;a&gt;&amp;&quot;&#039;&lt;/a&gt;`; it is not idempotent — every `&`
in its output (each one introduced by an escape) is re-escaped by a
second application, as the doubled expected value shows, and in general a
second application changes any output containing `&`. -/
theorem htmlspecialchars_spec :
    htmlspecialchars ("<a>&".data ++ [Char.ofNat 34, Char.ofNat 39] ++ "</a>".data)
      = "&lt;a&gt;&amp;&quot;&#039;&lt;/a&gt;".data
    ∧ htmlspecialchars (htmlspecialchars ("<a>&".data ++ [Char.ofNat 34, Char.ofNat 39] ++ "</a>".data))
      = "&amp;lt;a&amp;gt;&amp;amp;&amp;quot;&amp;#039;&amp;lt;/a&amp;gt;".data
    ∧ (∀ c rest, htmlspecialchars (c :: rest)
        = (if c = '&' then "&amp;".data
           else if c = Char.ofNat 34 then "&quot;".data
           else if c = Char.ofNat 39 then "&#039;".data
           else if c = '<' then "&lt;".data
           else if c = '>' then "&gt;".data
           else [c]) ++ htmlspecialchars rest)
    ∧ (∀ s, '&' ∈ s → htmlspecialchars (htmlspecialchars s) ≠ htmlspecialchars s) := by
  refine ⟨by decide, by decide, fun c rest => rfl, ?_⟩
  intro s h he
  have h1 : '&' ∈ htmlspecialchars s := amp_mem_htmlspecialchars s h
  have h2 := length_lt_length_htmlspecialchars (htmlspecialchars s) h1
  rw [he] at h2
  omega

/-- Claim C7 (witness): the non-idempotence conjunct at `"x&y"`. -/
theorem htmlspecialchars_spec_witness :
    '&' ∈ "x&y".data
    ∧ htmlspecialchars (htmlspecialchars "x&y".data) ≠ htmlspecialchars "x&y".data := by
  refine ⟨by decide, ?_⟩
  exact htmlspecialchars_spec.2.2.2 "x&y".data (by decide)

/-- Claim C8 (counterexample): `respond` takes an `int` status code but
`reason` takes an `unsigned short`, so the code is reduced modulo 2^16
for the phrase lookup while being printed unreduced.  The code 65736 lies
outside the closed status set, yet `respond` emits a full response
`HTTP/1.1 65736 OK` — not the silent no-op the claim states for every
code outside the set. -/
theorem respond_out_of_range_code_counterexample :
    respond 65736 [] [] ≠ none
    ∧ (65736 : Int) ∉ statusCodes.map (fun n => (n : Int))
    ∧ respond 65736 [] []
      = some { statusLine := "HTTP/1.1 65736 OK\r\n".data, headers := [], body := []
             , logLine := "HTTP/1.1 65736 OK".data } := by
  refine ⟨by decide, by decide, by decide⟩

/-- Claim C8 (amended): any output `respond` produces carries a code whose
reduction modulo 2^16 lies in the closed status set; and for every code
in the `unsigned short` range outside that set, `respond` and `error`
produce no output at all — no status line, headers or body, and no log
line. -/
theorem respond_unknown_silent :
    (∀ (code : Int) (h b : List Char) (out : HttpOut),
      respond code h b = some out → ((code % 65536).toNat) ∈ statusCodes) ∧
    (∀ code : Nat, code < 65536 → code ∉ statusCodes →
      (∀ h b, respond (code : Int) h b = none) ∧ error code = none) := by
  constructor
  · intro code h b out hr
    unfold respond at hr
    cases hf : reason ((code % 65536).toNat) with
    | none => rw [hf] at hr; exact absurd hr (by simp)
    | some ph => exact (reason_isSome_iff _).1 (by simp [hf])
  · intro code hlt hnot
    have hmod : ((code : Int) % 65536).toNat = code := by omega
    have hr : reason code = none := by
      cases hf : reason code with
      | none => rfl
      | some ph => exact absurd ((reason_isSome_iff code).1 (by simp [hf])) hnot
    refine ⟨fun h b => ?_, ?_⟩
    · unfold respond
      rw [hmod, hr]
    · unfold error
      rw [hr]

/-- Claim C8 (witness for the amended claim): code 402 is in range,
outside the set, and silently dropped by both writers. -/
theorem respond_unknown_silent_witness :
    (402 : Nat) < 65536 ∧ (402 : Nat) ∉ statusCodes
    ∧ (∀ h b, respond ((402 : Nat) : Int) h b = none) ∧ error 402 = none := by
  have h := respond_unknown_silent.2 402 (by decide) (by decide)
  exact ⟨by decide, by decide, h.1, h.2⟩

/-! ### Helper lemmas about `redirect`, `afterType` and `handle` -/

theorem redirect_eq (uri : List Char) :
    redirect uri
      = some { statusLine := "HTTP/1.1 301 Moved Permanently\r\n".data
             , headers := "Location: ".data ++ uri ++ "\r\n".data
             , body := []
             , logLine := "HTTP/1.1 301 Moved Permanently".data } := by
  unfold redirect respond
  have hre : reason (((301 : Int) % 65536).toNat) = some "Moved Permanently".data := by decide
  rw [hre]
  simp only [Option.some.injEq, HttpOut.mk.injEq, and_true, true_and]
  exact ⟨by decide, by decide⟩

theorem afterType_interpret (path q p qb : List Char) :
    afterType path q = .interpret p qb → qb = q := by
  intro h
  unfold afterType at h
  cases hl : lookup path with
  | none => rw [hl] at h; simp at h
  | some o =>
    rw [hl] at h
    cases o with
    | none => simp at h
    | some t =>
      by_cases hphp : eqNoCase "text/x-php".data t = true
      · simp only [hphp, if_true, ServerAction.interpret.injEq] at h
        exact h.2.symm
      · simp [hphp] at h

theorem handle_interpret (fs : FS) (root line bA bQ p qb a q : List Char)
    (hp : parse line bA bQ = .ok a q) :
    handle fs root line bA bQ = .interpret p qb → qb = q := by
  intro hh
  simp only [handle, hp] at hh
  by_cases hacc : fs.accessF (root ++ urldecodeC (cstr a)) = false
  · simp [hacc] at hh
  · by_cases hdir : fs.isDir (root ++ urldecodeC (cstr a)) = true
    · cases hlast : (cstr a).getLast? with
      | none => simp [hacc, hdir, hlast] at hh
      | some ch =>
        by_cases hch : ch ≠ '/'
        · simp [hacc, hdir, hlast, hch] at hh
        · cases hidx : indexes fs (root ++ urldecodeC (cstr a)) with
          | some ip =>
            simp only [hacc, if_false, hdir, if_true, hlast, hch, hidx] at hh
            exact afterType_interpret _ _ _ _ hh
          | none => simp [hacc, hdir, hlast, hch, hidx] at hh
    · simp only [hacc, if_false, hdir, if_false] at hh
      exact afterType_interpret _ _ _ _ hh

/-- Claim C5: a request whose resolved target is an existing directory and
whose stored (still percent-encoded) absolute path does not end in `/`
is answered with `redirect`: a 301 whose `Location` value is exactly the
stored path with `"/"` appended, and an empty body. -/
theorem directory_redirect_301 :
    ∀ (fs : FS) (root line bA bQ a q : List Char) (ch : Char),
      parse line bA bQ = .ok a q →
      fs.accessF (root ++ urldecodeC (cstr a)) = true →
      fs.isDir (root ++ urldecodeC (cstr a)) = true →
      (cstr a).getLast? = some ch → ch ≠ '/' →
      handle fs root line bA bQ = .redirect (cstr a ++ ['/'])
      ∧ redirect (cstr a ++ ['/'])
        = some { statusLine := "HTTP/1.1 301 Moved Permanently\r\n".data
               , headers := "Location: ".data ++ (cstr a ++ ['/']) ++ "\r\n".data
               , body := []
               , logLine := "HTTP/1.1 301 Moved Permanently".data } := by
  intro fs root line bA bQ a q ch hp hacc hdir hlast hne
  refine ⟨?_, redirect_eq (cstr a ++ ['/'])⟩
  simp only [handle, hp]
  rw [hacc, hdir, hlast]
  simp [hne]

/-- Claim C5 (witness): root `/r`, existing directory `/r/d`, request
`GET /d HTTP/1.1`. -/
theorem directory_redirect_301_witness :
    parse "GET /d HTTP/1.1\r\n".data "XXXX".data "YYYY".data
        = .ok (writeCStr "XXXX".data "/d".data) "YYYY".data
    ∧ handle fsDir "/r".data "GET /d HTTP/1.1\r\n".data "XXXX".data "YYYY".data
        = .redirect (cstr (writeCStr "XXXX".data "/d".data) ++ ['/'])
    ∧ redirect (cstr (writeCStr "XXXX".data "/d".data) ++ ['/'])
      = some { statusLine := "HTTP/1.1 301 Moved Permanently\r\n".data
             , headers := "Location: ".data ++ (cstr (writeCStr "XXXX".data "/d".data) ++ ['/']) ++ "\r\n".data
             , body := []
             , logLine := "HTTP/1.1 301 Moved Permanently".data } := by
  have h := directory_redirect_301 fsDir "/r".data "GET /d HTTP/1.1\r\n".data
    "XXXX".data "YYYY".data (writeCStr "XXXX".data "/d".data) "YYYY".data 'd'
    (by decide) (by decide) (by decide) (by decide) (by decide)
  exact ⟨by decide, h.1, h.2⟩

/-- Claim C9: for every request line that `parse` accepts and whose
request-target holds no `?`, the caller's query buffer comes back
byte-for-byte unchanged (`query = NULL` only rebinds the local
parameter), and whenever `main`'s dispatch reaches `interpret`, the query
argument it passes is that untouched buffer. -/
theorem parse_no_query_frames_buffer :
    ∀ (line bA bQ a q req : List Char) (fs : FS) (root p qb : List Char),
      parse line bA bQ = .ok a q →
      requestTargetOf line = some req → '?' ∉ req →
      q = bQ ∧ (handle fs root line bA bQ = .interpret p qb → qb = bQ) := by
  intro line bA bQ a q req fs root p qb hp hreq hmem
  cases hf : strchr ' ' line with
  | none => simp [requestTargetOf, hf] at hreq
  | some f =>
    cases hs : strrchr ' ' line with
    | none => simp [requestTargetOf, hf, hs] at hreq
    | some s =>
      simp only [requestTargetOf, hf, hs] at hreq
      by_cases hsf : s = f
      · simp [hsf] at hreq
      · rw [if_neg hsf, Option.some.injEq] at hreq
        have hq : q = bQ := by
          by_cases hm : line.take f ≠ "GET".data
          · simp [parse, hf, hm] at hp
          · by_cases hr1 : ((line.drop (f + 1)).take (s - f - 1)).take 1 ≠ ['/']
            · simp [parse, hf, hs, hsf, hm, hr1] at hp
            · by_cases hr2 : (strchr (Char.ofNat 34) ((line.drop (f + 1)).take (s - f - 1))).isSome
              · simp [parse, hf, hs, hsf, hm, hr1, hr2] at hp
              · cases hcl : findSub "\r\n".data line with
                | none => simp [parse, hf, hs, hsf, hm, hr1, hr2, hcl] at hp
                | some clrf =>
                  by_cases hob : clrf + 2 < s
                  · simp [parse, hf, hs, hsf, hm, hr1, hr2, hcl, hob] at hp
                  · by_cases hv : (line.drop (s + 1)).take (clrf + 2 - s) ≠ "HTTP/1.1\r\n".data
                    · simp [parse, hf, hs, hsf, hm, hr1, hr2, hcl, hob, hv] at hp
                    · have hqm : strchr '?' ((line.drop (f + 1)).take (s - f - 1)) = none := by
                        rw [hreq]
                        exact (strchr_eq_none_iff '?' req).2 hmem
                      simp only [parse, hf, hs, if_neg hsf, hm, if_false, hr1, hr2, hcl,
                        hob, hv, hqm, Option.isSome_none, Bool.false_eq_true,
                        ParseResult.ok.injEq] at hp
                      exact hp.2.symm
        exact ⟨hq, fun hh => (handle_interpret fs root line bA bQ p qb a q hp hh).trans hq⟩

/-- Claim C9 (witness): `GET /x.php HTTP/1.1` with the query buffer
holding `"garbage"` — `parse` succeeds, the buffer is unchanged, and the
dispatch hands exactly that buffer to `interpret`. -/
theorem parse_no_query_frames_buffer_witness :
    parse "GET /x.php HTTP/1.1\r\n".data "AAAA".data "garbage".data
        = .ok (writeCStr "AAAA".data "/x.php".data) "garbage".data
    ∧ requestTargetOf "GET /x.php HTTP/1.1\r\n".data = some "/x.php".data
    ∧ '?' ∉ "/x.php".data
    ∧ handle fsPhp "/r".data "GET /x.php HTTP/1.1\r\n".data "AAAA".data "garbage".data
        = .interpret "/r/x.php".data "garbage".data
    ∧ "garbage".data = "garbage".data := by
  have h := parse_no_query_frames_buffer "GET /x.php HTTP/1.1\r\n".data
    "AAAA".data "garbage".data (writeCStr "AAAA".data "/x.php".data) "garbage".data
    "/x.php".data fsPhp "/r".data "/r/x.php".data "garbage".data
    (by decide) (by decide) (by decide)
  exact ⟨by decide, by decide, by decide, by decide, h.2 (by decide)⟩

/-- Claim C10: a request line beginning `GET ` whose only space is that
one makes `strchr` and `strrchr` return the same position, so
`requestSize = secondSpace - firstSpace - 1` is the `int` −1 and the
bounded copy into the zero-length VLA receives `(size_t)(-1)` — an
out-of-bounds access, not any of the 400/405/501/505 error responses. -/
theorem parse_single_space_oob :
    ∀ (rest bA bQ : List Char), ' ' ∉ rest →
      parse ("GET ".data ++ rest) bA bQ = .oob
      ∧ strchr ' ' ("GET ".data ++ rest) = strrchr ' ' ("GET ".data ++ rest) := by
  intro rest bA bQ h
  have hcn : strchr ' ' rest = none := (strchr_eq_none_iff ' ' rest).2 h
  have hrn : strrchr ' ' rest = none := strrchr_eq_none_of_not_mem ' ' rest h
  have h1 : strchr ' ' ("GET ".data ++ rest) = some 3 := by
    show strchr ' ' ('G' :: 'E' :: 'T' :: ' ' :: rest) = some 3
    simp [strchr, hcn]
  have h2 : strrchr ' ' ("GET ".data ++ rest) = some 3 := by
    show strrchr ' ' ('G' :: 'E' :: 'T' :: ' ' :: rest) = some 3
    simp [strrchr, hrn]
  refine ⟨?_, h1.trans h2.symm⟩
  simp only [parse, h1, h2]
  simp

/-- Claim C10 (witness): the line `GET \r\n`. -/
theorem parse_single_space_oob_witness :
    ' ' ∉ "\r\n".data
    ∧ parse ("GET ".data ++ "\r\n".data) "ab".data "cd".data = .oob
    ∧ strchr ' ' ("GET ".data ++ "\r\n".data) = strrchr ' ' ("GET ".data ++ "\r\n".data) := by
  refine ⟨by decide, ?_, ?_⟩
  · exact (parse_single_space_oob "\r\n".data "ab".data "cd".data (by decide)).1
  · exact (parse_single_space_oob "\r\n".data "ab".data "cd".data (by decide)).2
